import Mathlib

/-
Shallow embedding of the oktaws orchestration pipeline (src/main.rs).

The program authenticates once per organization against Okta, fans out over
the selected profiles, resolves an application link and a SAML role for each,
exchanges the assertion for temporary AWS credentials, merges the results
into a shared credentials store, and persists the store once at the end.

External collaborators (Okta client network calls, the secret cache, the
credentials file on disk) are modelled as an `Env` of fallible functions;
side effects are recorded in an explicit `Event` trace.
-/

namespace Oktaws

/-- Temporary AWS credentials (rusoto_sts::Credentials): access key, secret,
session token, expiration. -/
structure Credentials where
  access_key_id : String
  secret_access_key : String
  session_token : String
  expiration : String
deriving Repr, DecidableEq

/-- A configured profile (config::organization::Profile): name, the Okta
application label it targets, and the AWS role name it targets. -/
structure Profile where
  name : String
  application_name : String
  role : String
deriving Repr, DecidableEq

/-- A configured organization (config::organization::Organization): the Okta
organization name, the username, and the profile list. -/
structure Organization where
  name : String
  username : String
  profiles : List Profile
deriving Repr, DecidableEq

/-- An Okta application link entry: application type tag, display label,
invocation URL. -/
structure AppLink where
  app_name : String
  label : String
  link_url : String
deriving Repr, DecidableEq

/-- Modelled from the spec: a RoleOption extracted from the SAML assertion.
The aws::role module is not under src/; per the spec a role option carries a
role identifier string and a role name derivable from the identifier, where
derivation can fail (such options are treated as non-matching). We model the
derived name as an optional field. -/
structure Role where
  role_arn : String
  role_name : Option String
deriving Repr, DecidableEq

/-- A parsed SAML response: the raw assertion plus the parsed role options. -/
structure SamlResponse where
  raw : String
  roles : List Role
deriving Repr, DecidableEq

/-- Response of the AWS assume-role-with-SAML call; the credential payload is
optional in the wire format. -/
structure AssumeRoleResponse where
  credentials : Option Credentials
deriving Repr, DecidableEq

/-- The Okta client state relevant to fetch_credentials: the organization it
is bound to and the session id set after new_session. -/
structure Client where
  orgName : String
  sessionId : String
deriving Repr, DecidableEq

/-- Command-line arguments (struct Args). The glob::Pattern is an external
crate; it is modelled as the predicate it denotes on candidate strings. -/
structure Args where
  profiles : String → Bool
  force_auth : Bool

/-- Observable side effects of a run, in order of occurrence. A `saveSecret`
or `persist` event denotes a completed (successful) write to the secret
store resp. the credentials file; call attempts that fail at the
collaborator are visible only through the error result. -/
inductive Event where
  | getPasswordCall (orgName username : String) (force : Bool)
  | sessionTokenCall (orgName : String)
  | newSessionCall (orgName : String)
  | appLinksCall (profileName : String)
  | samlFetch (profileName url : String)
  | assumeRoleCall (profileName roleArn : String)
  | warnNoProfiles (orgName : String)
  | setEntry (key : String) (creds : Credentials)
  | saveSecret (orgName username password : String)
  | persist (store : List (String × Credentials))
deriving Repr, DecidableEq

/-- The external collaborators consumed by the pipeline, as fallible
functions. Errors are the formatted message strings the Rust code carries in
failure::Error. -/
structure Env where
  loadStore : Except String (List (String × Credentials))
  get_password : String → String → Bool → Except String String
  get_session_token : String → String → String → Except String String
  new_session : String → Except String String
  app_links : Client → Except String (List AppLink)
  get_saml_response : Client → String → Except String SamlResponse
  assume_role : Role → String → Except String AssumeRoleResponse
  save_credentials : String → String → String → Except String Unit
  saveStore : List (String × Credentials) → Except String Unit

/-- True exactly on an error result. -/
def isErr {α : Type} : Except String α → Bool
  | .error _ => true
  | .ok _ => false

/-- True exactly on an ok result. -/
def isOk {α : Type} : Except String α → Bool
  | .error _ => false
  | .ok _ => true

/-- The composite key format!("{}/{}", organization, profile) used both for
profile selection and for credential-store entries. -/
def compositeKey (orgName profileName : String) : String :=
  orgName ++ "/" ++ profileName

/-- The application-link predicate of fetch_credentials, main.rs line 155:
app_link.app_name == "amazon_aws" && app_link.label == profile.application_name. -/
def appLinkMatch (profile : Profile) (l : AppLink) : Bool :=
  l.app_name == "amazon_aws" && l.label == profile.application_name

/-- The role-selection predicate of fetch_credentials, main.rs line 185:
r.role_name().map(|r| r == profile.role).unwrap_or(false). -/
def roleMatches (profile : Profile) (r : Role) : Bool :=
  (r.role_name.map (fun n => n == profile.role)).getD false

/-- fetch_credentials (main.rs lines 141-209): find the matching application
link, fetch the SAML response, find the matching role, assume it, and
extract the credential payload. Every failure is the formatted error string
of the corresponding format_err! call. -/
def fetchCredentials (env : Env) (client : Client) (organization : Organization)
    (profile : Profile) : Except String Credentials × List Event :=
  match env.app_links client with
  | .error e => (.error e, [.appLinksCall profile.name])
  | .ok links =>
    match links.find? (appLinkMatch profile) with
    | none =>
      (.error ("Could not find Okta application for profile " ++
          organization.name ++ "/" ++ profile.name),
        [.appLinksCall profile.name])
    | some app_link =>
      match env.get_saml_response client app_link.link_url with
      | .error e =>
        (.error ("Error getting SAML response for profile " ++ profile.name ++
            " (" ++ e ++ ")"),
          [.appLinksCall profile.name, .samlFetch profile.name app_link.link_url])
      | .ok saml =>
        match saml.roles.find? (roleMatches profile) with
        | none =>
          (.error ("No matching role (" ++ profile.role ++ ") found for profile " ++
              profile.name),
            [.appLinksCall profile.name, .samlFetch profile.name app_link.link_url])
        | some role =>
          match env.assume_role role saml.raw with
          | .error e =>
            (.error ("Error assuming role for profile " ++ profile.name ++
                " (" ++ e ++ ")"),
              [.appLinksCall profile.name, .samlFetch profile.name app_link.link_url,
                .assumeRoleCall profile.name role.role_arn])
          | .ok resp =>
            match resp.credentials with
            | none =>
              (.error "Error fetching credentials from assumed AWS role",
                [.appLinksCall profile.name, .samlFetch profile.name app_link.link_url,
                  .assumeRoleCall profile.name role.role_arn])
            | some credentials =>
              (.ok credentials,
                [.appLinksCall profile.name, .samlFetch profile.name app_link.link_url,
                  .assumeRoleCall profile.name role.role_arn])

/-- Modelled from the spec: HashMap::insert / CredentialsFile::set_profile_sts
on an association list — replace the value when the key is present, append
otherwise (the CredentialsFile module is not under src/; the spec describes
setEntry as a mapping update on composite keys). -/
def insertEntry (m : List (String × Credentials)) (k : String) (v : Credentials) :
    List (String × Credentials) :=
  if m.any (fun e => e.1 == k) then
    m.map (fun e => if e.1 == k then (k, v) else e)
  else
    m ++ [(k, v)]

/-- HashMap lookup on the association-list model: the value of the first
entry with the given key. -/
def lookupKey (m : List (String × Credentials)) (k : String) : Option Credentials :=
  (m.find? (fun e => e.1 == k)).map Prod.snd

/-- The try_reduce_with merge step (main.rs lines 110-113): a.extend(b),
inserting every entry of b into a. -/
def extendMap (a b : List (String × Credentials)) : List (String × Credentials) :=
  b.foldl (fun acc e => insertEntry acc e.1 e.2) a

/-- The fail-fast fold of main.rs lines 100-109: run fetch_credentials for
each profile in turn, inserting successes under the profile name, stopping at
the first failure. -/
def aggregateGo (env : Env) (client : Client) (organization : Organization) :
    List Profile → List (String × Credentials) →
    Except String (List (String × Credentials)) × List Event
  | [], acc => (.ok acc, [])
  | p :: rest, acc =>
    match fetchCredentials env client organization p with
    | (.error e, evs) => (.error e, evs)
    | (.ok credentials, evs) =>
      match aggregateGo env client organization rest (insertEntry acc p.name credentials) with
      | (r, evs2) => (r, evs ++ evs2)

/-- The aggregation of main.rs lines 100-117: with no selected profiles the
reducer yields nothing, a "No profiles" warning is logged and the result is
an empty mapping; otherwise the fail-fast fold runs. -/
def aggregate (env : Env) (client : Client) (organization : Organization)
    (selected : List Profile) :
    Except String (List (String × Credentials)) × List Event :=
  match selected with
  | [] => (.ok [], [.warnNoProfiles organization.name])
  | p :: rest => aggregateGo env client organization (p :: rest) []

/-- The profile selection of main.rs lines 78-85: keep the profiles whose
composite "organization/profile" string matches the glob pattern. -/
def selectedProfiles (args : Args) (organization : Organization) : List Profile :=
  organization.profiles.filter
    (fun p => args.profiles (compositeKey organization.name p.name))

/-- The per-organization body of the main loop (main.rs lines 75-131):
obtain the password, establish the session, aggregate the selected profiles,
emit one store entry per aggregated credential under the composite key, and
save the password back to the secret store. Returns the composite-key
entries destined for the shared store. -/
def processOrg (env : Env) (args : Args) (organization : Organization) :
    Except String (List (String × Credentials)) × List Event :=
  match env.get_password organization.name organization.username args.force_auth with
  | .error e =>
    (.error e,
      [.getPasswordCall organization.name organization.username args.force_auth])
  | .ok password =>
    match env.get_session_token organization.name organization.username password with
    | .error e =>
      (.error e,
        [.getPasswordCall organization.name organization.username args.force_auth,
          .sessionTokenCall organization.name])
    | .ok token =>
      match env.new_session token with
      | .error e =>
        (.error e,
          [.getPasswordCall organization.name organization.username args.force_auth,
            .sessionTokenCall organization.name, .newSessionCall organization.name])
      | .ok session_id =>
        match aggregate env ⟨organization.name, session_id⟩ organization
            (selectedProfiles args organization) with
        | (.error e, aggEvs) =>
          (.error e,
            [.getPasswordCall organization.name organization.username args.force_auth,
              .sessionTokenCall organization.name, .newSessionCall organization.name]
              ++ aggEvs)
        | (.ok org_credentials, aggEvs) =>
          match env.save_credentials organization.name organization.username password with
          | .error e =>
            (.error e,
              [.getPasswordCall organization.name organization.username args.force_auth,
                .sessionTokenCall organization.name, .newSessionCall organization.name]
                ++ aggEvs
                ++ org_credentials.map
                  (fun e => Event.setEntry (compositeKey organization.name e.1) e.2))
          | .ok _ =>
            (.ok (org_credentials.map
                (fun e => (compositeKey organization.name e.1, e.2))),
              [.getPasswordCall organization.name organization.username args.force_auth,
                .sessionTokenCall organization.name, .newSessionCall organization.name]
                ++ aggEvs
                ++ org_credentials.map
                  (fun e => Event.setEntry (compositeKey organization.name e.1) e.2)
                ++ [.saveSecret organization.name organization.username password])

/-- The sequential loop over organizations, threading the shared store: each
successfully processed organization's entries are inserted; the first
organization failure aborts the loop. -/
def runOrgs (env : Env) (args : Args) :
    List Organization → List (String × Credentials) →
    Except String (List (String × Credentials)) × List Event
  | [], store => (.ok store, [])
  | org :: rest, store =>
    match processOrg env args org with
    | (.error e, evs) => (.error e, evs)
    | (.ok entries, evs) =>
      match runOrgs env args rest
          (entries.foldl (fun acc e => insertEntry acc e.1 e.2) store) with
      | (r, evs2) => (r, evs ++ evs2)

/-- main (main.rs lines 53-139): load the credentials store, fail if no
organizations are configured, run the per-organization loop, and persist the
final store once at the end. An error result corresponds to a non-zero exit
code via ExitFailure. -/
def runMain (env : Env) (args : Args) (orgs : List Organization) :
    Except String Unit × List Event :=
  match env.loadStore with
  | .error e => (.error e, [])
  | .ok store0 =>
    if orgs.isEmpty then
      (.error "No organizations found", [])
    else
      match runOrgs env args orgs store0 with
      | (.error e, evs) => (.error e, evs)
      | (.ok finalStore, evs) =>
        match env.saveStore finalStore with
        | .error e => (.error e, evs ++ [.persist finalStore])
        | .ok _ => (.ok (), evs ++ [.persist finalStore])

/-- A sample credential for concrete runs. -/
def cred0 : Credentials :=
  ⟨"AKIAEXAMPLE", "secret", "token", "2026-01-01T00:00:00Z"⟩

/-- A sample profile targeting application "aws-dev" and role "Admin". -/
def devProfile : Profile := ⟨"dev", "aws-dev", "Admin"⟩

/-- A sample profile whose requested role is absent from the assertion. -/
def puProfile : Profile := ⟨"dev", "aws-dev", "PowerUser"⟩

/-- A sample profile whose application label is absent from the link list. -/
def prodProfile : Profile := ⟨"prod", "aws-prod", "Admin"⟩

/-- A sample organization with a single profile. -/
def acmeOrg : Organization := ⟨"acme", "user", [devProfile]⟩

/-- A sample application link matching devProfile. -/
def goodLink : AppLink := ⟨"amazon_aws", "aws-dev", "https://acme.okta.com/app/1"⟩

/-- A sample role option whose derived name is "Admin". -/
def adminRole : Role := ⟨"arn:aws:iam::1:role/Admin", some "Admin"⟩

/-- A sample SAML response carrying the admin role option. -/
def goodSaml : SamlResponse := ⟨"rawsaml", [adminRole]⟩

/-- A sample client bound to the acme organization. -/
def client0 : Client := ⟨"acme", "sid"⟩

/-- An environment in which every collaborator succeeds. -/
def okEnv : Env where
  loadStore := .ok []
  get_password := fun _ _ _ => .ok "pw"
  get_session_token := fun _ _ _ => .ok "tok"
  new_session := fun _ => .ok "sid"
  app_links := fun _ => .ok [goodLink]
  get_saml_response := fun _ _ => .ok goodSaml
  assume_role := fun _ _ => .ok ⟨some cred0⟩
  save_credentials := fun _ _ _ => .ok ()
  saveStore := fun _ => .ok ()

/-- An environment in which the application-link fetch fails. -/
def failEnv : Env :=
  { okEnv with app_links := fun _ => .error "network down" }

/-- Arguments whose pattern selects every profile (the default glob). -/
def allArgs : Args := ⟨fun _ => true, false⟩

/-- Arguments whose pattern selects no profile. -/
def noneArgs : Args := ⟨fun _ => false, false⟩

/-- Events emitted by the per-profile pipeline (fetch_credentials). -/
def isProfileEvent : Event → Bool
  | .appLinksCall _ => true
  | .samlFetch _ _ => true
  | .assumeRoleCall _ _ => true
  | _ => false

/-- Recognizes the store-persistence event. -/
def isPersist : Event → Bool
  | .persist _ => true
  | _ => false

/-- Recognizes the secret write-back event. -/
def isSaveSecret : Event → Bool
  | .saveSecret _ _ _ => true
  | _ => false

theorem fetchCredentials_events_profile (env : Env) (client : Client)
    (organization : Organization) (profile : Profile) :
    ∀ ev ∈ (fetchCredentials env client organization profile).2, isProfileEvent ev = true := by
  unfold fetchCredentials
  repeat' split
  all_goals simp [isProfileEvent]

theorem aggregateGo_events_profile (env : Env) (client : Client)
    (organization : Organization) :
    ∀ (l : List Profile) (acc : List (String × Credentials)),
      ∀ ev ∈ (aggregateGo env client organization l acc).2, isProfileEvent ev = true := by
  intro l
  induction l with
  | nil => intro acc ev hev; simp [aggregateGo] at hev
  | cons p rest ih =>
    intro acc ev hev
    rcases hfc : fetchCredentials env client organization p with ⟨r, evs⟩
    have hevp : ∀ e ∈ evs, isProfileEvent e = true := by
      have := fetchCredentials_events_profile env client organization p
      rw [hfc] at this
      exact this
    cases r with
    | error e =>
      simp only [aggregateGo, hfc] at hev
      exact hevp ev hev
    | ok credentials =>
      rcases hrec : aggregateGo env client organization rest
          (insertEntry acc p.name credentials) with ⟨r2, evs2⟩
      simp only [aggregateGo, hfc, hrec] at hev
      rcases List.mem_append.mp hev with h | h
      · exact hevp ev h
      · have := ih (insertEntry acc p.name credentials) ev
        rw [hrec] at this
        exact this h

theorem aggregate_events (env : Env) (client : Client) (organization : Organization)
    (selected : List Profile) :
    ∀ ev ∈ (aggregate env client organization selected).2,
      isProfileEvent ev = true ∨ ev = .warnNoProfiles organization.name := by
  intro ev hev
  cases selected with
  | nil => simp [aggregate] at hev; simp [hev]
  | cons p rest =>
    left
    exact aggregateGo_events_profile env client organization (p :: rest) [] ev hev

theorem aggregate_no_setEntry (env : Env) (client : Client) (organization : Organization)
    (selected : List Profile) (k : String) (c : Credentials) :
    Event.setEntry k c ∉ (aggregate env client organization selected).2 := by
  intro hmem
  rcases aggregate_events env client organization selected _ hmem with h | h
  · simp [isProfileEvent] at h
  · exact Event.noConfusion h

theorem aggregateGo_err (env : Env) (client : Client) (organization : Organization)
    (p : Profile) :
    ∀ (l : List Profile) (acc : List (String × Credentials)), p ∈ l →
      isErr (fetchCredentials env client organization p).1 = true →
      isErr (aggregateGo env client organization l acc).1 = true := by
  intro l
  induction l with
  | nil => intro acc hp _; simp at hp
  | cons q rest ih =>
    intro acc hp hf
    rcases hfc : fetchCredentials env client organization q with ⟨r, evs⟩
    cases r with
    | error e => simp [aggregateGo, hfc, isErr]
    | ok credentials =>
      rcases List.mem_cons.mp hp with heq | hmem
      · subst heq
        rw [hfc] at hf
        simp [isErr] at hf
      · rcases hrec : aggregateGo env client organization rest
            (insertEntry acc q.name credentials) with ⟨r2, evs2⟩
        have := ih (insertEntry acc q.name credentials) hmem hf
        rw [hrec] at this
        simp only [aggregateGo, hfc, hrec]
        exact this

theorem aggregate_err (env : Env) (client : Client) (organization : Organization)
    (selected : List Profile) (p : Profile) (hp : p ∈ selected)
    (hf : isErr (fetchCredentials env client organization p).1 = true) :
    isErr (aggregate env client organization selected).1 = true := by
  cases selected with
  | nil => simp at hp
  | cons q rest => exact aggregateGo_err env client organization p (q :: rest) [] hp hf

theorem lookupKey_nil (k : String) : lookupKey [] k = none := rfl

theorem lookupKey_cons (e : String × Credentials) (m : List (String × Credentials))
    (k : String) :
    lookupKey (e :: m) k = if e.1 == k then some e.2 else lookupKey m k := by
  cases h : e.1 == k <;> simp [lookupKey, List.find?_cons, h]

theorem lookupKey_append (a b : List (String × Credentials)) (k : String) :
    lookupKey (a ++ b) k =
      match lookupKey a k with
      | some v => some v
      | none => lookupKey b k := by
  induction a with
  | nil => simp [lookupKey_nil]
  | cons e a ih =>
    cases h : e.1 == k <;> simp [lookupKey_cons, h, ih]

theorem lookupKey_eq_none (m : List (String × Credentials)) (k : String) :
    lookupKey m k = none ↔ k ∉ m.map Prod.fst := by
  simp only [lookupKey, Option.map_eq_none', List.find?_eq_none, List.mem_map]
  constructor
  · rintro h ⟨e, hem, hk⟩
    exact h e hem (by simp [hk])
  · intro h e hem hbeq
    exact h ⟨e, hem, by simpa using hbeq⟩

theorem lookupKey_some_mem (m : List (String × Credentials)) (k : String)
    (v : Credentials) (h : lookupKey m k = some v) : k ∈ m.map Prod.fst := by
  by_contra hk
  rw [← lookupKey_eq_none m k] at hk
  rw [h] at hk
  exact Option.noConfusion hk

theorem insertEntry_of_not_mem (m : List (String × Credentials)) (k : String)
    (v : Credentials) (h : k ∉ m.map Prod.fst) :
    insertEntry m k v = m ++ [(k, v)] := by
  have hany : m.any (fun e => e.1 == k) = false := by
    rw [List.any_eq_false]
    intro e hem hbeq
    exact h (List.mem_map.mpr ⟨e, hem, by simpa using hbeq⟩)
  simp [insertEntry, hany]

theorem extendMap_of_disjoint (b : List (String × Credentials)) :
    ∀ a : List (String × Credentials),
      (∀ x ∈ b.map Prod.fst, x ∉ a.map Prod.fst) → (b.map Prod.fst).Nodup →
      extendMap a b = a ++ b := by
  induction b with
  | nil => intro a _ _; simp [extendMap]
  | cons e b ih =>
    intro a hdisj hnd
    have he : e.1 ∉ a.map Prod.fst := hdisj e.1 (by simp)
    have hstep : insertEntry a e.1 e.2 = a ++ [e] := by
      rw [insertEntry_of_not_mem a e.1 e.2 he]
    have hnd2 : (b.map Prod.fst).Nodup := by
      simp only [List.map_cons, List.nodup_cons] at hnd
      exact hnd.2
    have hhd : e.1 ∉ b.map Prod.fst := by
      simp only [List.map_cons, List.nodup_cons] at hnd
      exact hnd.1
    have hdisj2 : ∀ x ∈ b.map Prod.fst, x ∉ (a ++ [e]).map Prod.fst := by
      intro x hx
      simp only [List.map_append, List.mem_append, List.map_cons, List.map_nil,
        List.mem_singleton]
      rintro (hxa | hxe)
      · exact hdisj x (by simp [hx]) hxa
      · subst hxe
        exact hhd hx
    have : extendMap (a ++ [e]) b = (a ++ [e]) ++ b := ih (a ++ [e]) hdisj2 hnd2
    calc extendMap a (e :: b) = extendMap (insertEntry a e.1 e.2) b := by
          simp [extendMap, List.foldl_cons]
      _ = extendMap (a ++ [e]) b := by rw [hstep]
      _ = (a ++ [e]) ++ b := this
      _ = a ++ e :: b := by simp

theorem insertEntry_keys (m : List (String × Credentials)) (k : String) (v : Credentials)
    (x : String) (hx : x ∈ (insertEntry m k v).map Prod.fst) :
    x ∈ m.map Prod.fst ∨ x = k := by
  unfold insertEntry at hx
  split at hx
  · rcases List.mem_map.mp hx with ⟨y, hym, hyx⟩
    rcases List.mem_map.mp hym with ⟨d, hdm, hdy⟩
    by_cases hdk : d.1 = k
    · right
      subst hyx
      subst hdy
      simp [hdk]
    · left
      subst hyx
      subst hdy
      simp only [beq_iff_eq, hdk, if_false]
      exact List.mem_map.mpr ⟨d, hdm, rfl⟩
  · rw [List.map_append] at hx
    rcases List.mem_append.mp hx with h | h
    · exact Or.inl h
    · simp at h
      exact Or.inr h

theorem aggregateGo_ok_keys (env : Env) (client : Client) (organization : Organization) :
    ∀ (l : List Profile) (acc m : List (String × Credentials)),
      (aggregateGo env client organization l acc).1 = .ok m →
      ∀ e ∈ m, e.1 ∈ acc.map Prod.fst ∨ e.1 ∈ l.map Profile.name := by
  intro l
  induction l with
  | nil =>
    intro acc m h e hem
    simp only [aggregateGo, Except.ok.injEq] at h
    subst h
    exact Or.inl (List.mem_map.mpr ⟨e, hem, rfl⟩)
  | cons p rest ih =>
    intro acc m h e hem
    rcases hfc : fetchCredentials env client organization p with ⟨r, evs⟩
    cases r with
    | error err =>
      rw [show aggregateGo env client organization (p :: rest) acc =
          (.error err, evs) by simp [aggregateGo, hfc]] at h
      exact absurd h (by simp)
    | ok credentials =>
      rcases hrec : aggregateGo env client organization rest
          (insertEntry acc p.name credentials) with ⟨r2, evs2⟩
      rw [show aggregateGo env client organization (p :: rest) acc =
          (r2, evs ++ evs2) by simp [aggregateGo, hfc, hrec]] at h
      have hr2 : (aggregateGo env client organization rest
          (insertEntry acc p.name credentials)).1 = .ok m := by
        rw [hrec]
        exact h
      rcases ih (insertEntry acc p.name credentials) m hr2 e hem with hacc | hrest
      · rcases insertEntry_keys acc p.name credentials e.1 hacc with h1 | h1
        · exact Or.inl h1
        · exact Or.inr (by simp [h1])
      · exact Or.inr (by simp [hrest])

theorem aggregate_ok_keys (env : Env) (client : Client) (organization : Organization)
    (selected : List Profile) (m : List (String × Credentials))
    (h : (aggregate env client organization selected).1 = .ok m) :
    ∀ e ∈ m, e.1 ∈ selected.map Profile.name := by
  intro e hem
  cases selected with
  | nil =>
    simp only [aggregate, Except.ok.injEq] at h
    subst h
    simp at hem
  | cons p rest =>
    rcases aggregateGo_ok_keys env client organization (p :: rest) [] m h e hem with h1 | h1
    · simp at h1
    · exact h1

theorem profileEvent_not_persist (ev : Event) (h : isProfileEvent ev = true) :
    isPersist ev = false := by
  cases ev <;> simp [isProfileEvent, isPersist] at h ⊢

theorem profileEvent_not_saveSecret (ev : Event) (h : isProfileEvent ev = true) :
    isSaveSecret ev = false := by
  cases ev <;> simp [isProfileEvent, isSaveSecret] at h ⊢

theorem profileEvent_not_setEntry (ev : Event) (h : isProfileEvent ev = true)
    (k : String) (c : Credentials) : ev ≠ Event.setEntry k c := by
  cases ev <;> simp [isProfileEvent] at h ⊢

theorem processOrg_no_persist (env : Env) (args : Args) (organization : Organization) :
    ∀ ev ∈ (processOrg env args organization).2, isPersist ev = false := by
  intro ev hev
  rcases hpw : env.get_password organization.name organization.username args.force_auth
    with e | password
  · simp only [processOrg, hpw] at hev
    simp only [List.mem_singleton] at hev
    simp [hev, isPersist]
  · rcases htok : env.get_session_token organization.name organization.username password
      with e | token
    · simp only [processOrg, hpw, htok] at hev
      simp only [List.mem_cons, List.not_mem_nil, or_false] at hev
      rcases hev with h | h <;> simp [h, isPersist]
    · rcases hsid : env.new_session token with e | session_id
      · simp only [processOrg, hpw, htok, hsid] at hev
        simp only [List.mem_cons, List.not_mem_nil, or_false] at hev
        rcases hev with h | h | h <;> simp [h, isPersist]
      · rcases hagg : aggregate env ⟨organization.name, session_id⟩ organization
            (selectedProfiles args organization) with ⟨r, aggEvs⟩
        have haggev : ∀ ev ∈ aggEvs,
            isProfileEvent ev = true ∨ ev = .warnNoProfiles organization.name := by
          have := aggregate_events env ⟨organization.name, session_id⟩ organization
            (selectedProfiles args organization)
          rw [hagg] at this
          exact this
        cases r with
        | error e2 =>
          simp only [processOrg, hpw, htok, hsid, hagg] at hev
          simp only [List.mem_append, List.mem_cons, List.not_mem_nil, or_false] at hev
          rcases hev with (h | h | h) | h
          · simp [h, isPersist]
          · simp [h, isPersist]
          · simp [h, isPersist]
          · rcases haggev ev h with hp | hw
            · exact profileEvent_not_persist ev hp
            · simp [hw, isPersist]
        | ok org_credentials =>
          rcases hsave : env.save_credentials organization.name organization.username password
            with e | u
          · simp only [processOrg, hpw, htok, hsid, hagg, hsave] at hev
            simp only [List.mem_append, List.mem_cons, List.not_mem_nil, or_false] at hev
            rcases hev with ((h | h | h) | h) | h
            · simp [h, isPersist]
            · simp [h, isPersist]
            · simp [h, isPersist]
            · rcases haggev ev h with hp | hw
              · exact profileEvent_not_persist ev hp
              · simp [hw, isPersist]
            · rcases List.mem_map.mp h with ⟨d, _, hd⟩
              simp [← hd, isPersist]
          · simp only [processOrg, hpw, htok, hsid, hagg, hsave] at hev
            simp only [List.mem_append, List.mem_cons, List.not_mem_nil, or_false,
              List.mem_singleton] at hev
            rcases hev with (((h | h | h) | h) | h) | h
            · simp [h, isPersist]
            · simp [h, isPersist]
            · simp [h, isPersist]
            · rcases haggev ev h with hp | hw
              · exact profileEvent_not_persist ev hp
              · simp [hw, isPersist]
            · rcases List.mem_map.mp h with ⟨d, _, hd⟩
              simp [← hd, isPersist]
            · simp [h, isPersist]

theorem processOrg_agg_err (env : Env) (args : Args) (organization : Organization)
    (hagg : ∀ sid, isErr (aggregate env ⟨organization.name, sid⟩ organization
      (selectedProfiles args organization)).1 = true) :
    isErr (processOrg env args organization).1 = true := by
  rcases hpw : env.get_password organization.name organization.username args.force_auth
    with e | password
  · simp [processOrg, hpw, isErr]
  · rcases htok : env.get_session_token organization.name organization.username password
      with e | token
    · simp [processOrg, hpw, htok, isErr]
    · rcases hsid : env.new_session token with e | session_id
      · simp [processOrg, hpw, htok, hsid, isErr]
      · rcases heq : aggregate env ⟨organization.name, session_id⟩ organization
            (selectedProfiles args organization) with ⟨r, aggEvs⟩
        cases r with
        | error e2 => simp [processOrg, hpw, htok, hsid, heq, isErr]
        | ok org_credentials =>
          have := hagg session_id
          rw [heq] at this
          simp [isErr] at this

theorem processOrg_setEntry_origin (env : Env) (args : Args) (organization : Organization)
    (k : String) (c : Credentials)
    (hmem : Event.setEntry k c ∈ (processOrg env args organization).2) :
    ∃ session_id m aggEvs,
      aggregate env ⟨organization.name, session_id⟩ organization
        (selectedProfiles args organization) = (.ok m, aggEvs) ∧
      ∃ e ∈ m, k = compositeKey organization.name e.1 := by
  rcases hpw : env.get_password organization.name organization.username args.force_auth
    with e | password
  · simp only [processOrg, hpw] at hmem
    simp at hmem
  · rcases htok : env.get_session_token organization.name organization.username password
      with e | token
    · simp only [processOrg, hpw, htok] at hmem
      simp at hmem
    · rcases hsid : env.new_session token with e | session_id
      · simp only [processOrg, hpw, htok, hsid] at hmem
        simp at hmem
      · rcases hagg : aggregate env ⟨organization.name, session_id⟩ organization
            (selectedProfiles args organization) with ⟨r, aggEvs⟩
        have haggne : Event.setEntry k c ∉ aggEvs := by
          have := aggregate_no_setEntry env ⟨organization.name, session_id⟩ organization
            (selectedProfiles args organization) k c
          rw [hagg] at this
          exact this
        cases r with
        | error e2 =>
          simp only [processOrg, hpw, htok, hsid, hagg] at hmem
          simp only [List.mem_append, List.mem_cons, List.not_mem_nil, or_false] at hmem
          rcases hmem with (h | h | h) | h
          · exact Event.noConfusion h
          · exact Event.noConfusion h
          · exact Event.noConfusion h
          · exact absurd h haggne
        | ok org_credentials =>
          refine ⟨session_id, org_credentials, aggEvs, hagg, ?_⟩
          rcases hsave : env.save_credentials organization.name organization.username password
            with e | u
          all_goals
            simp only [processOrg, hpw, htok, hsid, hagg, hsave] at hmem
          all_goals
            simp only [List.mem_append, List.mem_cons, List.not_mem_nil, or_false,
              List.mem_singleton] at hmem
          · rcases hmem with ((h | h | h) | h) | h
            · exact Event.noConfusion h
            · exact Event.noConfusion h
            · exact Event.noConfusion h
            · exact absurd h haggne
            · rcases List.mem_map.mp h with ⟨d, hd, hde⟩
              refine ⟨d, hd, ?_⟩
              rcases Event.setEntry.inj hde with ⟨hk, _⟩
              exact hk.symm
          · rcases hmem with (((h | h | h) | h) | h) | h
            · exact Event.noConfusion h
            · exact Event.noConfusion h
            · exact Event.noConfusion h
            · exact absurd h haggne
            · rcases List.mem_map.mp h with ⟨d, hd, hde⟩
              refine ⟨d, hd, ?_⟩
              rcases Event.setEntry.inj hde with ⟨hk, _⟩
              exact hk.symm
            · exact Event.noConfusion h

theorem runOrgs_no_persist (env : Env) (args : Args) :
    ∀ (orgs : List Organization) (store : List (String × Credentials)),
      ∀ ev ∈ (runOrgs env args orgs store).2, isPersist ev = false := by
  intro orgs
  induction orgs with
  | nil => intro store ev hev; simp [runOrgs] at hev
  | cons org rest ih =>
    intro store ev hev
    rcases hpo : processOrg env args org with ⟨r, evs⟩
    have hponp : ∀ ev ∈ evs, isPersist ev = false := by
      have := processOrg_no_persist env args org
      rw [hpo] at this
      exact this
    cases r with
    | error e =>
      simp only [runOrgs, hpo] at hev
      exact hponp ev hev
    | ok entries =>
      rcases hrec : runOrgs env args rest
          (entries.foldl (fun acc e => insertEntry acc e.1 e.2) store) with ⟨r2, evs2⟩
      simp only [runOrgs, hpo, hrec] at hev
      rcases List.mem_append.mp hev with h | h
      · exact hponp ev h
      · have := ih (entries.foldl (fun acc e => insertEntry acc e.1 e.2) store) ev
        rw [hrec] at this
        exact this h

theorem runOrgs_truncate (env : Env) (args : Args) (o : Organization) :
    ∀ pre : List Organization, (∀ q ∈ pre, isOk (processOrg env args q).1 = true) →
      isErr (processOrg env args o).1 = true →
      ∀ (post : List Organization) (store : List (String × Credentials)),
        runOrgs env args (pre ++ o :: post) store = runOrgs env args (pre ++ [o]) store ∧
        isErr (runOrgs env args (pre ++ [o]) store).1 = true := by
  intro pre
  induction pre with
  | nil =>
    intro _ ho post store
    rcases hpo : processOrg env args o with ⟨r, evs⟩
    cases r with
    | error e =>
      constructor
      · simp [runOrgs, hpo]
      · simp [runOrgs, hpo, isErr]
    | ok entries =>
      rw [hpo] at ho
      simp [isErr] at ho
  | cons q pre ih =>
    intro hpre ho post store
    have hq := hpre q (by simp)
    rcases hpo : processOrg env args q with ⟨r, evs⟩
    cases r with
    | error e =>
      rw [hpo] at hq
      simp [isOk] at hq
    | ok entries =>
      have hpre2 : ∀ x ∈ pre, isOk (processOrg env args x).1 = true := by
        intro x hx
        exact hpre x (by simp [hx])
      obtain ⟨heq, herr⟩ := ih hpre2 ho post
        (entries.foldl (fun acc e => insertEntry acc e.1 e.2) store)
      constructor
      · simp only [List.cons_append, runOrgs, hpo, List.append_eq, heq]
      · rcases hrec : runOrgs env args (pre ++ [o])
            (entries.foldl (fun acc e => insertEntry acc e.1 e.2) store) with ⟨r2, evs2⟩
        rw [hrec] at herr
        simp only [List.cons_append, runOrgs, hpo, List.append_eq, hrec]
        simpa using herr

theorem runMain_persist_once (env : Env) (args : Args) (orgs : List Organization) :
    (runMain env args orgs).2.countP isPersist ≤ 1 := by
  rcases hload : env.loadStore with e | store0
  · simp [runMain, hload]
  · by_cases horgs : orgs.isEmpty
    · simp [runMain, hload, horgs]
    · rcases hrun : runOrgs env args orgs store0 with ⟨r, evs⟩
      have hevs : evs.countP isPersist = 0 := by
        rw [List.countP_eq_zero]
        intro ev hev
        have := runOrgs_no_persist env args orgs store0 ev
        rw [hrun] at this
        simp [this hev]
      cases r with
      | error e =>
        simp [runMain, hload, horgs, hrun, hevs]
      | ok finalStore =>
        rcases hss : env.saveStore finalStore with e | u <;>
          simp [runMain, hload, horgs, hrun, hss, List.countP_append, hevs,
            List.countP_cons, isPersist]

/-- C1: for every organization, if the per-profile pipeline of any one
selected profile fails, the organization's aggregation is a failure, the
organization's processing is a failure, and no credential entry for any
profile of that organization is written into the credential store — its
partial per-profile successes are discarded. -/
theorem claim1_fail_fast (env : Env) (args : Args) (organization : Organization)
    (p : Profile) (hp : p ∈ selectedProfiles args organization)
    (hf : ∀ sid, isErr (fetchCredentials env ⟨organization.name, sid⟩
      organization p).1 = true) :
    (∀ sid, isErr (aggregate env ⟨organization.name, sid⟩ organization
      (selectedProfiles args organization)).1 = true) ∧
    isErr (processOrg env args organization).1 = true ∧
    ∀ k c, Event.setEntry k c ∉ (processOrg env args organization).2 := by
  have haggerr : ∀ sid, isErr (aggregate env ⟨organization.name, sid⟩ organization
      (selectedProfiles args organization)).1 = true :=
    fun sid => aggregate_err env ⟨organization.name, sid⟩ organization
      (selectedProfiles args organization) p hp (hf sid)
  refine ⟨haggerr, processOrg_agg_err env args organization haggerr, ?_⟩
  intro k c hmem
  rcases processOrg_setEntry_origin env args organization k c hmem
    with ⟨sid, m, aggEvs, haggeq, _⟩
  have := haggerr sid
  rw [haggeq] at this
  simp [isErr] at this

theorem claim1_witness :
    (∀ sid, isErr (aggregate failEnv ⟨acmeOrg.name, sid⟩ acmeOrg
      (selectedProfiles allArgs acmeOrg)).1 = true) ∧
    isErr (processOrg failEnv allArgs acmeOrg).1 = true ∧
    ∀ k c, Event.setEntry k c ∉ (processOrg failEnv allArgs acmeOrg).2 :=
  claim1_fail_fast failEnv allArgs acmeOrg devProfile (by decide) (fun _ => rfl)

/-- C2: the credential store is persisted at most once, and only after every
organization has been processed successfully: when organization o (preceded
by the successful organizations pre) fails, the run's result is a failure, no
persist event occurs, and the run's observable behavior is identical to the
run truncated at o — the organizations after o are never attempted, and the
entries already merged for pre are never persisted. -/
theorem claim2_persist_once_abort (env : Env) (args : Args) (pre : List Organization)
    (o : Organization) (post : List Organization)
    (hpre : ∀ q ∈ pre, isOk (processOrg env args q).1 = true)
    (ho : isErr (processOrg env args o).1 = true) :
    isErr (runMain env args (pre ++ o :: post)).1 = true ∧
    (∀ st, Event.persist st ∉ (runMain env args (pre ++ o :: post)).2) ∧
    (runMain env args (pre ++ o :: post)).2 = (runMain env args (pre ++ [o])).2 ∧
    ∀ orgs : List Organization, (runMain env args orgs).2.countP isPersist ≤ 1 := by
  rcases hload : env.loadStore with e | store0
  · exact ⟨by simp [runMain, hload, isErr], by simp [runMain, hload],
      by simp [runMain, hload], fun orgs => runMain_persist_once env args orgs⟩
  · have hne : (pre ++ o :: post).isEmpty = false := by cases pre <;> rfl
    have hne2 : (pre ++ [o]).isEmpty = false := by cases pre <;> rfl
    obtain ⟨htr, herr⟩ := runOrgs_truncate env args o pre hpre ho post store0
    rcases hrun : runOrgs env args (pre ++ [o]) store0 with ⟨r, evs⟩
    rw [hrun] at htr herr
    cases r with
    | ok finalStore => simp [isErr] at herr
    | error e2 =>
      have hnop : ∀ ev ∈ evs, isPersist ev = false := by
        have := runOrgs_no_persist env args (pre ++ [o]) store0
        rw [hrun] at this
        exact this
      refine ⟨?_, ?_, ?_, fun orgs => runMain_persist_once env args orgs⟩
      · simp [runMain, hload, hne, htr, isErr]
      · intro st hmem
        simp only [runMain, hload, hne, Bool.false_eq_true, if_false, htr] at hmem
        have := hnop _ hmem
        simp [isPersist] at this
      · simp [runMain, hload, hne, hne2, htr, hrun]

theorem claim2_witness :
    isErr (runMain failEnv allArgs ([] ++ acmeOrg :: [])).1 = true ∧
    (∀ st, Event.persist st ∉ (runMain failEnv allArgs ([] ++ acmeOrg :: [])).2) ∧
    (runMain failEnv allArgs ([] ++ acmeOrg :: [])).2 =
      (runMain failEnv allArgs ([] ++ [acmeOrg])).2 ∧
    ∀ orgs : List Organization, (runMain failEnv allArgs orgs).2.countP isPersist ≤ 1 :=
  claim2_persist_once_abort failEnv allArgs [] acmeOrg [] (by simp) (by decide)

/-- C3: for an organization whose selected-profile set is empty, aggregation
succeeds with an empty mapping and only the non-fatal "No profiles" warning:
the organization's processing succeeds with no store entries, and a run over
that organization still ends with success (exit code zero). -/
theorem claim3_empty_selection (env : Env) (args : Args) (organization : Organization)
    (password token session_id : String) (s0 : List (String × Credentials))
    (hsel : selectedProfiles args organization = [])
    (hpw : env.get_password organization.name organization.username args.force_auth =
      .ok password)
    (htok : env.get_session_token organization.name organization.username password =
      .ok token)
    (hsid : env.new_session token = .ok session_id)
    (hsave : env.save_credentials organization.name organization.username password =
      .ok ())
    (hload : env.loadStore = .ok s0)
    (hstore : env.saveStore s0 = .ok ()) :
    aggregate env ⟨organization.name, session_id⟩ organization
      (selectedProfiles args organization) =
      (.ok [], [.warnNoProfiles organization.name]) ∧
    (processOrg env args organization).1 = .ok [] ∧
    Event.warnNoProfiles organization.name ∈ (processOrg env args organization).2 ∧
    (∀ k c, Event.setEntry k c ∉ (processOrg env args organization).2) ∧
    (runMain env args [organization]).1 = .ok () := by
  have hproc : processOrg env args organization =
      (.ok [], [.getPasswordCall organization.name organization.username args.force_auth,
        .sessionTokenCall organization.name, .newSessionCall organization.name,
        .warnNoProfiles organization.name,
        .saveSecret organization.name organization.username password]) := by
    simp [processOrg, hpw, htok, hsid, hsel, aggregate, hsave]
  refine ⟨?_, ?_, ?_, ?_, ?_⟩
  · rw [hsel]
    simp [aggregate]
  · rw [hproc]
  · rw [hproc]
    simp
  · intro k c
    rw [hproc]
    simp
  · simp [runMain, hload, runOrgs, hproc, hstore]

theorem claim3_witness :
    aggregate okEnv ⟨acmeOrg.name, "sid"⟩ acmeOrg (selectedProfiles noneArgs acmeOrg) =
      (.ok [], [.warnNoProfiles acmeOrg.name]) ∧
    (processOrg okEnv noneArgs acmeOrg).1 = .ok [] ∧
    Event.warnNoProfiles acmeOrg.name ∈ (processOrg okEnv noneArgs acmeOrg).2 ∧
    (∀ k c, Event.setEntry k c ∉ (processOrg okEnv noneArgs acmeOrg).2) ∧
    (runMain okEnv noneArgs [acmeOrg]).1 = .ok () :=
  claim3_empty_selection okEnv noneArgs acmeOrg "pw" "tok" "sid" []
    (by decide) rfl rfl rfl rfl rfl rfl

/-- C4: for a profile whose configured target role name matches no role
option of the assertion, fetch_credentials fails with the error naming the
requested role and the profile, and the assume-role exchange is never
attempted. -/
theorem claim4_role_not_found (env : Env) (client : Client)
    (organization : Organization) (profile : Profile) (links : List AppLink)
    (app_link : AppLink) (saml : SamlResponse)
    (h1 : env.app_links client = .ok links)
    (h2 : links.find? (appLinkMatch profile) = some app_link)
    (h3 : env.get_saml_response client app_link.link_url = .ok saml)
    (h4 : ∀ r ∈ saml.roles, roleMatches profile r = false) :
    (fetchCredentials env client organization profile).1 =
      .error ("No matching role (" ++ profile.role ++ ") found for profile " ++
        profile.name) ∧
    ∀ n a, Event.assumeRoleCall n a ∉ (fetchCredentials env client organization profile).2 := by
  have hnone : saml.roles.find? (roleMatches profile) = none :=
    List.find?_eq_none.mpr (fun r hr => by simp [h4 r hr])
  constructor
  · simp [fetchCredentials, h1, h2, h3, hnone]
  · intro n a
    simp [fetchCredentials, h1, h2, h3, hnone]

theorem claim4_witness :
    (fetchCredentials okEnv client0 acmeOrg puProfile).1 =
      .error ("No matching role (" ++ puProfile.role ++ ") found for profile " ++
        puProfile.name) ∧
    ∀ n a, Event.assumeRoleCall n a ∉ (fetchCredentials okEnv client0 acmeOrg puProfile).2 :=
  claim4_role_not_found okEnv client0 acmeOrg puProfile [goodLink] goodLink goodSaml
    rfl (by decide) rfl (by decide)

/-- C5: the merge of per-profile results is commutative and associative:
for maps whose keys (profile names) are pairwise distinct, the HashMap
extend merge yields the same final mapping in any order or grouping,
key-for-key identical. -/
theorem claim5_merge_comm_assoc (a b c : List (String × Credentials))
    (h : ((a ++ b ++ c).map Prod.fst).Nodup) :
    (∀ k, lookupKey (extendMap a b) k = lookupKey (extendMap b a) k) ∧
    (∀ k, lookupKey (extendMap (extendMap a b) c) k =
      lookupKey (extendMap a (extendMap b c)) k) := by
  rw [List.map_append, List.map_append] at h
  rcases List.nodup_append.mp h with ⟨hab, hc, hdabc⟩
  rcases List.nodup_append.mp hab with ⟨ha, hb, hdab⟩
  have hdbc : ∀ x ∈ c.map Prod.fst, x ∉ b.map Prod.fst := by
    intro x hxc hxb
    exact hdabc (List.mem_append_right _ hxb) hxc
  have hdac : ∀ x ∈ c.map Prod.fst, x ∉ a.map Prod.fst := by
    intro x hxc hxa
    exact hdabc (List.mem_append_left _ hxa) hxc
  have hext_ab : extendMap a b = a ++ b :=
    extendMap_of_disjoint b a (fun x hxb hxa => hdab hxa hxb) hb
  have hext_ba : extendMap b a = b ++ a :=
    extendMap_of_disjoint a b (fun x hxa hxb => hdab hxa hxb) ha
  constructor
  · intro k
    rw [hext_ab, hext_ba, lookupKey_append, lookupKey_append]
    rcases hka : lookupKey a k with _ | v <;> rcases hkb : lookupKey b k with _ | w <;> simp
    exact (hdab (lookupKey_some_mem a k v hka) (lookupKey_some_mem b k w hkb)).elim
  · have hext_bc : extendMap b c = b ++ c :=
      extendMap_of_disjoint c b hdbc hc
    have hext_abc1 : extendMap (a ++ b) c = (a ++ b) ++ c := by
      refine extendMap_of_disjoint c (a ++ b) ?_ hc
      intro x hxc hxab
      rw [List.map_append] at hxab
      rcases List.mem_append.mp hxab with hxa | hxb
      · exact hdac x hxc hxa
      · exact hdbc x hxc hxb
    have hext_abc2 : extendMap a (b ++ c) = a ++ (b ++ c) := by
      refine extendMap_of_disjoint (b ++ c) a ?_ ?_
      · intro x hxbc hxa
        rw [List.map_append] at hxbc
        rcases List.mem_append.mp hxbc with hxb | hxc
        · exact hdab hxa hxb
        · exact hdac x hxc hxa
      · rw [List.map_append]
        exact List.nodup_append.mpr ⟨hb, hc, fun x hxb hxc => hdbc x hxc hxb⟩
    intro k
    rw [hext_ab, hext_abc1, hext_bc, hext_abc2, List.append_assoc]

theorem claim5_witness :
    (∀ k, lookupKey (extendMap [("acme/dev", cred0)] [("acme/prod", cred0)]) k =
      lookupKey (extendMap [("acme/prod", cred0)] [("acme/dev", cred0)]) k) ∧
    (∀ k, lookupKey (extendMap (extendMap [("acme/dev", cred0)] [("acme/prod", cred0)]) []) k =
      lookupKey (extendMap [("acme/dev", cred0)] (extendMap [("acme/prod", cred0)] [])) k) :=
  claim5_merge_comm_assoc [("acme/dev", cred0)] [("acme/prod", cred0)] [] (by decide)

/-- C6: a profile participates in an organization's fan-out exactly when the
glob pattern matches the literal "organization/profile" composite string, and
every credential-store entry written during the organization's processing
uses exactly such a composite key of a selected profile. -/
theorem claim6_selection_and_keys (env : Env) (args : Args)
    (organization : Organization) (p : Profile) (k : String) (c : Credentials)
    (hmem : Event.setEntry k c ∈ (processOrg env args organization).2) :
    (p ∈ selectedProfiles args organization ↔
      p ∈ organization.profiles ∧
        args.profiles (compositeKey organization.name p.name) = true) ∧
    ∃ q ∈ selectedProfiles args organization, k = compositeKey organization.name q.name := by
  constructor
  · simp [selectedProfiles, List.mem_filter]
  · rcases processOrg_setEntry_origin env args organization k c hmem
      with ⟨sid, m, aggEvs, haggeq, e, hem, hk⟩
    have hkeys := aggregate_ok_keys env ⟨organization.name, sid⟩ organization
      (selectedProfiles args organization) m (by rw [haggeq]) e hem
    rcases List.mem_map.mp hkeys with ⟨q, hq, hqname⟩
    refine ⟨q, hq, ?_⟩
    rw [hk, hqname]

theorem claim6_witness :
    (devProfile ∈ selectedProfiles allArgs acmeOrg ↔
      devProfile ∈ acmeOrg.profiles ∧
        allArgs.profiles (compositeKey acmeOrg.name devProfile.name) = true) ∧
    ∃ q ∈ selectedProfiles allArgs acmeOrg,
      "acme/dev" = compositeKey acmeOrg.name q.name :=
  claim6_selection_and_keys okEnv allArgs acmeOrg devProfile "acme/dev" cred0 (by decide)

/-- C7: role resolution selects from the application-link list exactly an
entry with application type "amazon_aws" and label equal to the profile's
configured application name; when no such entry exists, fetch_credentials
fails with the error naming the organization and profile, and no SAML
assertion fetch is attempted. -/
theorem claim7_app_link_selection (env : Env) (client : Client)
    (organization : Organization) (profile : Profile) (links : List AppLink)
    (h1 : env.app_links client = .ok links) :
    (∀ link, links.find? (appLinkMatch profile) = some link →
      link.app_name = "amazon_aws" ∧ link.label = profile.application_name) ∧
    (links.find? (appLinkMatch profile) = none →
      (fetchCredentials env client organization profile).1 =
        .error ("Could not find Okta application for profile " ++
          organization.name ++ "/" ++ profile.name) ∧
      ∀ n u, Event.samlFetch n u ∉ (fetchCredentials env client organization profile).2) := by
  constructor
  · intro link hfind
    have := List.find?_some hfind
    simpa [appLinkMatch] using this
  · intro hnone
    constructor
    · simp [fetchCredentials, h1, hnone]
    · intro n u
      simp [fetchCredentials, h1, hnone]

theorem claim7_witness :
    (∀ link, [goodLink].find? (appLinkMatch prodProfile) = some link →
      link.app_name = "amazon_aws" ∧ link.label = prodProfile.application_name) ∧
    ([goodLink].find? (appLinkMatch prodProfile) = none →
      (fetchCredentials okEnv client0 acmeOrg prodProfile).1 =
        .error ("Could not find Okta application for profile " ++
          acmeOrg.name ++ "/" ++ prodProfile.name) ∧
      ∀ n u, Event.samlFetch n u ∉ (fetchCredentials okEnv client0 acmeOrg prodProfile).2) :=
  claim7_app_link_selection okEnv client0 acmeOrg prodProfile [goodLink] rfl

/-- C8: a role option whose identifier yields no parseable role name is
treated as non-matching rather than fatal: it never matches, the search over
the role options equals the search over only the parseable ones, and the
search comes up empty exactly when no role option matches. -/
theorem claim8_unparseable_skipped (profile : Profile) (roles : List Role) :
    (∀ r : Role, r.role_name = none → roleMatches profile r = false) ∧
    roles.find? (roleMatches profile) =
      (roles.filter (fun r => r.role_name.isSome)).find? (roleMatches profile) ∧
    (roles.find? (roleMatches profile) = none ↔
      ∀ r ∈ roles, roleMatches profile r = false) := by
  refine ⟨?_, ?_, ?_⟩
  · intro r h
    simp [roleMatches, h]
  · induction roles with
    | nil => rfl
    | cons r rest ih =>
      cases hr : r.role_name with
      | none =>
        have hm : roleMatches profile r = false := by simp [roleMatches, hr]
        simp [List.filter_cons, hr, List.find?_cons, hm, ih]
      | some n =>
        have hs : r.role_name.isSome = true := by simp [hr]
        cases hm : roleMatches profile r with
        | true => simp [List.filter_cons, hs, List.find?_cons, hm]
        | false => simp [List.filter_cons, hs, List.find?_cons, hm, ih]
  · rw [List.find?_eq_none]
    constructor
    · intro h r hr
      have := h r hr
      simpa using this
    · intro h r hr
      simp [h r hr]

/-- C9: with zero organizations configured the run fails with the fatal "No
organizations found" configuration error and an empty event trace — no
session establishment, no profile work, no store mutation — and the error
result means a non-zero exit code. -/
theorem claim9_no_organizations (env : Env) (args : Args)
    (s0 : List (String × Credentials)) (hload : env.loadStore = .ok s0) :
    runMain env args [] = (.error "No organizations found", []) := by
  simp [runMain, hload]

theorem claim9_witness :
    runMain okEnv allArgs [] = (.error "No organizations found", []) :=
  claim9_no_organizations okEnv allArgs [] rfl

/-- C10: for an organization whose processing completes successfully, the
password is saved back to the secret store exactly once, as the very last
step — after the store merge — regardless of the force-auth flag; for an
organization whose processing fails, no password save occurs. -/
theorem claim10_secret_saved_once (env : Env) (args : Args)
    (organization : Organization) :
    (isOk (processOrg env args organization).1 = true →
      (processOrg env args organization).2.countP isSaveSecret = 1 ∧
      ∃ password, (processOrg env args organization).2.getLast? =
        some (.saveSecret organization.name organization.username password)) ∧
    (isErr (processOrg env args organization).1 = true →
      (processOrg env args organization).2.countP isSaveSecret = 0) := by
  rcases hpw : env.get_password organization.name organization.username args.force_auth
    with e | password
  · have hpr : processOrg env args organization =
        (.error e,
          [.getPasswordCall organization.name organization.username args.force_auth]) := by
      simp [processOrg, hpw]
    refine ⟨fun h => ?_, fun _ => ?_⟩
    · rw [hpr] at h
      simp [isOk] at h
    · rw [hpr]
      simp [List.countP_cons, isSaveSecret]
  · rcases htok : env.get_session_token organization.name organization.username password
      with e | token
    · have hpr : processOrg env args organization =
          (.error e,
            [.getPasswordCall organization.name organization.username args.force_auth,
              .sessionTokenCall organization.name]) := by
        simp [processOrg, hpw, htok]
      refine ⟨fun h => ?_, fun _ => ?_⟩
      · rw [hpr] at h
        simp [isOk] at h
      · rw [hpr]
        simp [List.countP_cons, isSaveSecret]
    · rcases hsid : env.new_session token with e | session_id
      · have hpr : processOrg env args organization =
            (.error e,
              [.getPasswordCall organization.name organization.username args.force_auth,
                .sessionTokenCall organization.name,
                .newSessionCall organization.name]) := by
          simp [processOrg, hpw, htok, hsid]
        refine ⟨fun h => ?_, fun _ => ?_⟩
        · rw [hpr] at h
          simp [isOk] at h
        · rw [hpr]
          simp [List.countP_cons, isSaveSecret]
      · rcases hagg : aggregate env ⟨organization.name, session_id⟩ organization
            (selectedProfiles args organization) with ⟨r, aggEvs⟩
        have haggz : aggEvs.countP isSaveSecret = 0 := by
          rw [List.countP_eq_zero]
          intro ev hev
          have hcl := aggregate_events env ⟨organization.name, session_id⟩ organization
            (selectedProfiles args organization) ev
          rw [hagg] at hcl
          rcases hcl hev with hprof | hwarn
          · simp [profileEvent_not_saveSecret ev hprof]
          · simp [hwarn, isSaveSecret]
        cases r with
        | error e2 =>
          have hpr : processOrg env args organization =
              (.error e2,
                [.getPasswordCall organization.name organization.username args.force_auth,
                  .sessionTokenCall organization.name, .newSessionCall organization.name]
                  ++ aggEvs) := by
            simp [processOrg, hpw, htok, hsid, hagg]
          refine ⟨fun h => ?_, fun _ => ?_⟩
          · rw [hpr] at h
            simp [isOk] at h
          · rw [hpr]
            simp [List.countP_append, List.countP_cons, isSaveSecret, haggz]
        | ok org_credentials =>
          have hsetz : (org_credentials.map
              (fun e => Event.setEntry (compositeKey organization.name e.1) e.2)).countP
              isSaveSecret = 0 := by
            rw [List.countP_eq_zero]
            intro ev hev
            rcases List.mem_map.mp hev with ⟨d, _, hd⟩
            simp [← hd, isSaveSecret]
          rcases hsave : env.save_credentials organization.name organization.username password
            with e | u
          · have hpr : processOrg env args organization =
                (.error e,
                  [.getPasswordCall organization.name organization.username args.force_auth,
                    .sessionTokenCall organization.name, .newSessionCall organization.name]
                    ++ aggEvs
                    ++ org_credentials.map
                      (fun e => Event.setEntry (compositeKey organization.name e.1) e.2)) := by
              simp [processOrg, hpw, htok, hsid, hagg, hsave]
            refine ⟨fun h => ?_, fun _ => ?_⟩
            · rw [hpr] at h
              simp [isOk] at h
            · rw [hpr]
              simp [List.countP_append, List.countP_cons, isSaveSecret, haggz, hsetz]
          · have hpr : processOrg env args organization =
                (.ok (org_credentials.map
                    (fun e => (compositeKey organization.name e.1, e.2))),
                  [.getPasswordCall organization.name organization.username args.force_auth,
                    .sessionTokenCall organization.name, .newSessionCall organization.name]
                    ++ aggEvs
                    ++ org_credentials.map
                      (fun e => Event.setEntry (compositeKey organization.name e.1) e.2)
                    ++ [.saveSecret organization.name organization.username password]) := by
              simp [processOrg, hpw, htok, hsid, hagg, hsave]
            refine ⟨fun _ => ⟨?_, password, ?_⟩, fun h => ?_⟩
            · rw [hpr]
              simp [List.countP_append, List.countP_cons, isSaveSecret, haggz, hsetz]
            · rw [hpr]
              have hra : ([.getPasswordCall organization.name organization.username
                    args.force_auth, .sessionTokenCall organization.name,
                    .newSessionCall organization.name]
                  ++ aggEvs
                  ++ org_credentials.map
                    (fun e => Event.setEntry (compositeKey organization.name e.1) e.2)
                  ++ [Event.saveSecret organization.name organization.username password]) =
                  (([.getPasswordCall organization.name organization.username
                      args.force_auth, .sessionTokenCall organization.name,
                      .newSessionCall organization.name]
                    ++ aggEvs
                    ++ org_credentials.map
                      (fun e => Event.setEntry (compositeKey organization.name e.1) e.2))
                    ++ [Event.saveSecret organization.name organization.username password]) := by
                simp [List.append_assoc]
              rw [hra, List.getLast?_concat]
            · rw [hpr] at h
              simp [isErr] at h

end Oktaws
